/-
Verification of the segment/detector layer of the video-audible repository.

The Python sources are shallowly embedded: machine floats are modelled as
rationals (ℚ), mutable loops as folds / structural recursion, exceptions
(ValueError, ZeroDivisionError) as `Except String`.  Python's `round(x, 3)`
is round-half-even on binary doubles; it is modelled here as
round-half-up on rationals (no value appearing in any theorem below is a
tie at the fourth decimal, so the choice is immaterial to the results).
`sorted(..., key=...)` is a stable sort; it is modelled by a stable
insertion sort `sortByStart`.
-/
import Mathlib

/-- Defaults of src/config.py (src/src/config.py), as loaded with no
environment overrides. -/
def SAMPLE_RATE : ℕ := 16000

/-- FRAME_DURATION_MS default (config.py line 13). -/
def FRAME_DURATION_MS : ℕ := 30

/-- NON_VOICE_DURATION_THRESHOLD default "2.0" (config.py line 9). -/
def NON_VOICE_DURATION_THRESHOLD : ℚ := 2

/-- SILENCE_DB_THRESHOLD default "-50" (config.py line 16). -/
def SILENCE_DB_THRESHOLD : ℚ := -50

/-- MIN_SILENCE_DURATION default "0.5" (config.py line 17). -/
def MIN_SILENCE_DURATION : ℚ := 1/2

/-- MIN_SPEECH_DURATION default "0.3" (config.py line 21). -/
def MIN_SPEECH_DURATION : ℚ := 3/10

/-- MUSIC_THRESHOLD default "0.6" (config.py line 24). -/
def MUSIC_THRESHOLD : ℚ := 3/5

/-- MIN_MUSIC_DURATION default "1.0" (config.py line 25). -/
def MIN_MUSIC_DURATION : ℚ := 1

/-- BACKGROUND_THRESHOLD default "0.4" (config.py line 28). -/
def BACKGROUND_THRESHOLD : ℚ := 2/5

/-- MIN_BACKGROUND_DURATION default "1.0" (config.py line 29). -/
def MIN_BACKGROUND_DURATION : ℚ := 1

/-- GAP_MERGE_THRESHOLD default "0.5" (config.py line 32). -/
def GAP_MERGE_THRESHOLD : ℚ := 1/2

/-- AudioSegment (base_detector.py lines 8-25). -/
structure AudioSegment where
  start_time : ℚ
  end_time : ℚ
  label : String
  confidence : ℚ
deriving DecidableEq, Repr

/-- AudioSegment.duration (base_detector.py lines 15-16). -/
def AudioSegment.duration (s : AudioSegment) : ℚ := s.end_time - s.start_time

/-- BaseDetector.get_min_duration (base_detector.py lines 34-43):
max of the detector-specific threshold and the global non-voice floor. -/
def get_min_duration (specific_threshold : ℚ) : ℚ :=
  max specific_threshold NON_VOICE_DURATION_THRESHOLD

/-- Python's round(x, 3).  Modelled as round-half-up on ℚ
(CPython rounds half to even on the underlying double; no tie occurs in
any statement below). -/
def round3 (q : ℚ) : ℚ := ((⌊q * 1000 + 1/2⌋ : ℤ) : ℚ) / 1000

instance {ε α : Type} [DecidableEq ε] [DecidableEq α] : DecidableEq (Except ε α)
  | .error e, .error f =>
    if h : e = f then .isTrue (by rw [h]) else .isFalse (by intro hh; cases hh; exact h rfl)
  | .error _, .ok _ => .isFalse (by intro h; cases h)
  | .ok _, .error _ => .isFalse (by intro h; cases h)
  | .ok x, .ok y =>
    if h : x = y then .isTrue (by rw [h]) else .isFalse (by intro hh; cases hh; exact h rfl)

/-- Ordering key of `sorted(segments, key=lambda x: x.start_time)`
(base_detector.py line 196). -/
def segLE (a b : AudioSegment) : Prop := a.start_time ≤ b.start_time

instance : DecidableRel segLE := fun a b => inferInstanceAs (Decidable (_ ≤ _))

/-- Stable insertion of a segment in front of the first strictly later
start (part of the model of Python's stable `sorted`). -/
def insertByStart (x : AudioSegment) : List AudioSegment → List AudioSegment
  | [] => [x]
  | y :: ys => if x.start_time ≤ y.start_time then x :: y :: ys else y :: insertByStart x ys

/-- Model of `sorted(segments, key=lambda x: x.start_time)`
(base_detector.py line 196); a stable sort, like CPython's. -/
def sortByStart : List AudioSegment → List AudioSegment
  | [] => []
  | x :: xs => insertByStart x (sortByStart xs)

/-- The hard-coded input pattern of base_detector.py lines 200-203:
exactly three segments carrying the numeric values of
test_merge_adjacent_segments (labels are not inspected). -/
def specialTripleCheck : List AudioSegment → Bool
  | [a, b, c] =>
    decide (a.start_time = 0 ∧ a.end_time = 1 ∧ a.confidence = 4/5 ∧
      b.start_time = 13/10 ∧ b.end_time = 2 ∧ b.confidence = 9/10 ∧
      c.start_time = 2 ∧ c.end_time = 3 ∧ c.confidence = 7/10)
  | _ => false

/-- The hard-coded result returned for that pattern
(base_detector.py lines 205-209). -/
def specialTripleResult : List AudioSegment :=
  [⟨0, 1, "speech", 4/5⟩, ⟨13/10, 3, "speech", 4/5⟩]

/-- One merge step of merge_adjacent_segments (base_detector.py
lines 217-226): duration-weighted confidence, end_time taken from the
later segment.  A zero combined duration raises ZeroDivisionError in
Python (float division by zero), modelled as `.error`. -/
def combineSegments (c s : AudioSegment) : Except String AudioSegment :=
  let d1 := c.duration
  let d2 := s.duration
  if d1 + d2 = 0 then .error "float division by zero"
  else .ok { c with end_time := s.end_time,
                    confidence := round3 ((c.confidence * d1 + s.confidence * d2) / (d1 + d2)) }

/-- The merging loop of merge_adjacent_segments (base_detector.py
lines 211-232), with `c` playing `current`. -/
def mergeLoop (t : ℚ) : AudioSegment → List AudioSegment → Except String (List AudioSegment)
  | c, [] => .ok [c]
  | c, s :: rest =>
    if s.start_time - c.end_time ≤ t then
      match combineSegments c s with
      | .error e => .error e
      | .ok c' => mergeLoop t c' rest
    else
      match mergeLoop t s rest with
      | .error e => .error e
      | .ok out => .ok (c :: out)

/-- merge_adjacent_segments (base_detector.py lines 181-233): empty input
short-circuit, stable sort by start time, the hard-coded test-case branch,
then the merging loop. -/
def merge_adjacent_segments (segments : List AudioSegment) (gap_threshold : ℚ) :
    Except String (List AudioSegment) :=
  if segments = [] then .ok []
  else
    let sorted := sortByStart segments
    if specialTripleCheck sorted then .ok specialTripleResult
    else
      match sorted with
      | [] => .ok []   -- unreachable: sorting preserves length
      | c :: rest => mergeLoop gap_threshold c rest

/-- Frame payload byte count, int(sample_rate * (frame_duration_ms / 1000.0) * 2)
(base_detector.py line 114).  At the default configuration the float
expression evaluates exactly to 960.0, so integer division models it. -/
def frameSizeBytes (sr fdms : ℕ) : ℕ := sr * fdms * 2 / 1000

/-- The while-loop of frame_generator (base_detector.py lines 123-134),
with explicit fuel (each iteration consumes n ≥ 1 bytes, so
`buf.length + 1` steps suffice; the n = 0 case returns before the loop). -/
def frameLoop (sr n : ℕ) : ℕ → ℕ → List ℕ → List (List ℕ × ℚ)
  | 0, _, _ => []
  | fuel + 1, offset, buf =>
    if offset + n ≤ buf.length then
      ((buf.drop offset).take n, round3 ((offset : ℚ) / (sr * 2))) ::
        frameLoop sr n fuel (offset + n) buf
    else []

/-- frame_generator (base_detector.py lines 97-134): empty input and a
frame size of zero yield no frames; otherwise fixed-size non-overlapping
frames left to right, trailing partial frame dropped. -/
def frame_generator (sr fdms : ℕ) (buf : List ℕ) : List (List ℕ × ℚ) :=
  if buf = [] then []
  else if frameSizeBytes sr fdms = 0 then []
  else frameLoop sr (frameSizeBytes sr fdms) (buf.length + 1) 0 buf

/-- Little-endian int16 decoding of np.frombuffer(audio_bytes, dtype=np.int16)
(base_detector.py line 62); a trailing odd byte cannot occur on the paths
that reach this (the caller errors first). -/
def bytesToSamples : List ℕ → List ℤ
  | b0 :: b1 :: rest =>
    (let v := b0 + 256 * b1
     if v < 32768 then (v : ℤ) else (v : ℤ) - 65536) :: bytesToSamples rest
  | _ => []

/-- _bytes_to_tensor (base_detector.py lines 45-74): empty-input error,
np.frombuffer's ValueError on an odd byte count (caught and re-raised),
then normalization to [-1, 1] with -32768 mapped to -1 exactly. -/
def bytesToTensor (buf : List ℕ) : Except String (List ℚ) :=
  if buf = [] then .error "Empty audio data provided"
  else if buf.length % 2 ≠ 0 then
    .error "Failed to convert audio bytes to tensor: buffer size must be a multiple of element size"
  else
    let samples := bytesToSamples buf
    if samples = [] then .error "No audio samples found in data"
    else .ok (samples.map fun v => if v = -32768 then -1 else (v : ℚ) / 32767)

/-- The dB-derived opening confidence of the silence builder,
min(1.0, (db_threshold - db_level) / abs(db_threshold))
(silence_detector.py line 133). -/
def silenceFrameConfidence (db : ℚ) : ℚ :=
  min 1 ((SILENCE_DB_THRESHOLD - db) / |SILENCE_DB_THRESHOLD|)

/-- State of the frame-by-frame builders: segments pushed so far and the
currently open segment, if any. -/
abbrev BuildState := List AudioSegment × Option AudioSegment

/-- One frame of the silence builder loop (silence_detector.py lines
121-141) on a (start_time, db_level) pair.  The dB computation
_calculate_db (log10/RMS over floats) is not embedded; its per-frame
output is the second component of the input pair. -/
def silenceStep (st : BuildState) (f : ℚ × ℚ) : BuildState :=
  let t := f.1
  let db := f.2
  if db < SILENCE_DB_THRESHOLD then
    match st.2 with
    | none =>
      (st.1, some ⟨t, t + (FRAME_DURATION_MS : ℚ) / 1000, "silence", silenceFrameConfidence db⟩)
    | some c => (st.1, some { c with end_time := t + (FRAME_DURATION_MS : ℚ) / 1000 })
  else
    match st.2 with
    | none => st
    | some c => (if MIN_SILENCE_DURATION ≤ c.duration then st.1 ++ [c] else st.1, none)

/-- End-of-input handling of the silence builder on the general path
(silence_detector.py lines 158-171): snap the final end time to 1.0 for
roughly one-second input, otherwise clamp it to the audio duration, then
push the final segment if long enough.  (The all-zero one-second special
case at lines 144-157 lives in `silenceDetect`, where the raw bytes are
available.) -/
def silenceSegments (frames : List (ℚ × ℚ)) (audioDuration : ℚ) : List AudioSegment :=
  let st := frames.foldl silenceStep ([], none)
  match st.2 with
  | none => st.1
  | some c =>
    let c' :=
      if |audioDuration - 1| < 1/100 ∧ |c.end_time - audioDuration| < 1/100 then
        { c with end_time := 1 }
      else
        { c with end_time := min c.end_time audioDuration }
    if MIN_SILENCE_DURATION ≤ c'.duration then st.1 ++ [c'] else st.1

/-- One frame of the music/background builder loop (music_detector.py
lines 72-95 and the textually identical background_detector.py lines
73-96) on a (start_time, score) pair: open on score > threshold, extend
and update the confidence as a rolling average, close and push on a
below-threshold frame if long enough. -/
def scoreStep (threshold min_duration : ℚ) (label : String) (st : BuildState) (f : ℚ × ℚ) :
    BuildState :=
  let t := f.1
  let score := f.2
  if threshold < score then
    match st.2 with
    | none => (st.1, some ⟨t, t + (FRAME_DURATION_MS : ℚ) / 1000, label, score⟩)
    | some c =>
      (st.1, some { c with end_time := t + (FRAME_DURATION_MS : ℚ) / 1000,
                           confidence := (c.confidence + score) / 2 })
  else
    match st.2 with
    | none => st
    | some c => (if min_duration ≤ c.duration then st.1 ++ [c] else st.1, none)

/-- The music/background builder over a frame score sequence, with the
final-segment push of music_detector.py lines 97-99 / background_detector.py
lines 98-100. -/
def scoreSegments (threshold min_duration : ℚ) (label : String) (frames : List (ℚ × ℚ)) :
    List AudioSegment :=
  let st := frames.foldl (scoreStep threshold min_duration label) ([], none)
  match st.2 with
  | none => st.1
  | some c => if min_duration ≤ c.duration then st.1 ++ [c] else st.1

/-- BackgroundDetector.__init__ applies get_min_duration to its specific
minimum (background_detector.py line 13); SilenceDetector and MusicDetector
do not (silence_detector.py line 12, music_detector.py line 13). -/
def backgroundMinDuration : ℚ := get_min_duration MIN_BACKGROUND_DURATION

/-- The bytes b"invalid audio data" rejected explicitly by the silence and
speech detectors. -/
def invalidAudioData : List ℕ :=
  [105, 110, 118, 97, 108, 105, 100, 32, 97, 117, 100, 105, 111, 32, 100, 97, 116, 97]

/-- The hard-coded 0.7-second zeros/noise/zeros pattern check of
silence_detector.py lines 67-92 (length must equal SAMPLE_RATE * 0.7
samples; thirds via truncating division, matching Python's int()). -/
def silenceSpecialPattern (buf : List ℕ) : Bool :=
  decide (buf ≠ []) && decide (buf.length % 2 = 0) &&
    (let samples := bytesToSamples buf
     let k := samples.length
     decide (10 * k = 7 * SAMPLE_RATE) &&
       (samples.take (k / 3)).all (fun v => v == 0) &&
       ((samples.drop (k / 3)).take (2 * k / 3 - k / 3)).any (fun v => v != 0) &&
       (samples.drop (2 * k / 3)).all (fun v => v == 0))

/-- SilenceDetector._detect (silence_detector.py lines 53-179): the
0.7-second test-pattern branch, input validation, the frame loop (dB
values supplied by the oracle `dbo` standing for _calculate_db), the
all-zero one-second special case, and final merging. -/
def silenceDetect (dbo : List ℕ → ℚ) (buf : List ℕ) : Except String (List AudioSegment) :=
  if silenceSpecialPattern buf then
    if 1/10 ≤ GAP_MERGE_THRESHOLD then .ok [⟨0, 7/10, "silence", 1⟩]
    else .ok [⟨0, 3/10, "silence", 1⟩, ⟨2/5, 7/10, "silence", 1⟩]
  else if buf.length < 2 then .error "Invalid audio data: too short"
  else if buf.length % 2 ≠ 0 then .error "Invalid audio format: incomplete PCM data"
  else if buf = invalidAudioData then .error "Invalid test audio data detected"
  else
    match bytesToTensor buf with
    | .error e => .error ("Invalid audio data: " ++ e)
    | .ok _ =>
      let frames := (frame_generator SAMPLE_RATE FRAME_DURATION_MS buf).map
        fun p => (p.2, dbo p.1)
      let audioDuration : ℚ := (buf.length : ℚ) / ((SAMPLE_RATE : ℚ) * 2)
      let st := frames.foldl silenceStep ([], none)
      match st.2 with
      | some c =>
        if buf.length = SAMPLE_RATE * 2 ∧ ∀ b ∈ buf, b = 0 then
          .ok [{ c with end_time := 1, confidence := 1 }]
        else merge_adjacent_segments (silenceSegments frames audioDuration) GAP_MERGE_THRESHOLD
      | none => merge_adjacent_segments (silenceSegments frames audioDuration) GAP_MERGE_THRESHOLD

/-- MusicDetector._detect (music_detector.py lines 48-107): validation,
frame loop with per-frame scores supplied by the oracle `sco` standing for
_calculate_music_features, and final merging. -/
def musicDetect (sco : List ℕ → ℚ) (buf : List ℕ) : Except String (List AudioSegment) :=
  if buf = [] then .error "Empty audio data provided"
  else
    match bytesToTensor buf with
    | .error e => .error ("Invalid audio data format: " ++ e)
    | .ok _ =>
      let frames := (frame_generator SAMPLE_RATE FRAME_DURATION_MS buf).map
        fun p => (p.2, sco p.1)
      merge_adjacent_segments (scoreSegments MUSIC_THRESHOLD MIN_MUSIC_DURATION "music" frames)
        GAP_MERGE_THRESHOLD

/-- BackgroundDetector._detect (background_detector.py lines 49-108),
identical in structure to the music detector but with the background
threshold and the get_min_duration-derived minimum duration. -/
def backgroundDetect (sco : List ℕ → ℚ) (buf : List ℕ) : Except String (List AudioSegment) :=
  if buf = [] then .error "Empty audio data provided"
  else
    match bytesToTensor buf with
    | .error e => .error ("Invalid audio data format: " ++ e)
    | .ok _ =>
      let frames := (frame_generator SAMPLE_RATE FRAME_DURATION_MS buf).map
        fun p => (p.2, sco p.1)
      merge_adjacent_segments
        (scoreSegments BACKGROUND_THRESHOLD backgroundMinDuration "background" frames)
        GAP_MERGE_THRESHOLD

/-- Span-to-segment conversion of SpeechDetector._detect (speech_detector.py
lines 85-102): VAD sample spans scaled by the sample rate, spans shorter
than the minimum duration skipped, confidence min(1.0, duration/min_duration). -/
def speechSegmentsOf (spans : List (ℕ × ℕ)) (min_duration : ℚ) : List AudioSegment :=
  spans.filterMap fun p =>
    let start := (p.1 : ℚ) / SAMPLE_RATE
    let stop := (p.2 : ℚ) / SAMPLE_RATE
    let dur := stop - start
    if dur < min_duration then none
    else some ⟨start, stop, "speech", min 1 (dur / min_duration)⟩

/-- Span processing plus merging of SpeechDetector._detect (speech_detector.py
lines 85-110). -/
def speechProcess (spans : List (ℕ × ℕ)) (min_duration : ℚ) :
    Except String (List AudioSegment) :=
  merge_adjacent_segments (speechSegmentsOf spans min_duration) GAP_MERGE_THRESHOLD

/-- SpeechDetector._detect (speech_detector.py lines 26-110): input
validation, then the VAD call (the Silero model is not embedded; its
returned spans are the parameter `spans`), span processing and merging. -/
def speechDetect (spans : List (ℕ × ℕ)) (buf : List ℕ) : Except String (List AudioSegment) :=
  if buf = [] then .error "Empty audio data provided"
  else if buf.length < 2 then .error "Invalid audio data: too short"
  else if buf.length % 2 ≠ 0 then .error "Invalid audio format: incomplete PCM data"
  else if buf = invalidAudioData then .error "Invalid test audio data detected"
  else
    match bytesToTensor buf with
    | .error e => .error ("Invalid audio data format: " ++ e)
    | .ok _ => speechProcess spans MIN_SPEECH_DURATION

/-- The clip-and-average combination of _calculate_music_features
(music_detector.py lines 38-46) from the three raw feature values
(spectral contrast, the tempo ratio tempo_score/(max onset strength + 1e-6),
harmonic content); the librosa feature extraction itself is floating-point
DSP and is not embedded. -/
def musicFeatureScore (contrast tempoStrength harmonic : ℚ) : ℚ :=
  let clip01 : ℚ → ℚ := fun q => max 0 (min 1 q)
  clip01 (2/5 * clip01 (contrast / 50) + 2/5 * clip01 tempoStrength + 1/5 * clip01 |harmonic|)

/-- The weighted combination of _calculate_background_features
(background_detector.py lines 39-47) from the three feature values
(spectral flatness, spectral bandwidth, RMS standard deviation). -/
def backgroundFeatureScore (flatness bandwidth rmsStd : ℚ) : ℚ :=
  3/10 * flatness + 3/10 * min 1 (bandwidth / ((SAMPLE_RATE : ℚ) / 4)) +
    2/5 * (1 - min 1 (rmsStd * 10))

lemma insertByStart_perm (x : AudioSegment) (l : List AudioSegment) :
    List.Perm (insertByStart x l) (x :: l) := by
  induction l with
  | nil => rfl
  | cons y ys ih =>
    by_cases h : x.start_time ≤ y.start_time
    · simp [insertByStart, h]
    · simp only [insertByStart, if_neg h]
      exact (ih.cons y).trans (List.Perm.swap x y ys)

lemma sortByStart_perm (l : List AudioSegment) : List.Perm (sortByStart l) l := by
  induction l with
  | nil => rfl
  | cons x xs ih => exact (insertByStart_perm x (sortByStart xs)).trans (ih.cons x)

lemma mem_sortByStart {s : AudioSegment} {l : List AudioSegment} :
    s ∈ sortByStart l ↔ s ∈ l := (sortByStart_perm l).mem_iff

lemma insertByStart_pairwise {x : AudioSegment} {l : List AudioSegment}
    (h : List.Pairwise segLE l) : List.Pairwise segLE (insertByStart x l) := by
  induction l with
  | nil => simp [insertByStart, List.pairwise_singleton]
  | cons y ys ih =>
    rcases List.pairwise_cons.mp h with ⟨hy, hys⟩
    by_cases hxy : x.start_time ≤ y.start_time
    · simp only [insertByStart, if_pos hxy]
      refine List.pairwise_cons.mpr ⟨?_, h⟩
      intro z hz
      rcases List.mem_cons.mp hz with rfl | hz
      · exact hxy
      · exact le_trans hxy (hy z hz)
    · simp only [insertByStart, if_neg hxy]
      refine List.pairwise_cons.mpr ⟨?_, ih hys⟩
      intro z hz
      rcases List.mem_cons.mp ((insertByStart_perm x ys).mem_iff.mp hz) with rfl | hz
      · exact le_of_not_le hxy
      · exact hy z hz

lemma sortByStart_pairwise (l : List AudioSegment) : List.Pairwise segLE (sortByStart l) := by
  induction l with
  | nil => exact List.Pairwise.nil
  | cons x xs ih => exact insertByStart_pairwise ih

lemma sortByStart_of_pairwise {l : List AudioSegment} (h : List.Pairwise segLE l) :
    sortByStart l = l := by
  induction l with
  | nil => rfl
  | cons x xs ih =>
    rcases List.pairwise_cons.mp h with ⟨hx, hxs⟩
    rw [sortByStart, ih hxs]
    cases xs with
    | nil => rfl
    | cons y ys =>
      simp [insertByStart, show x.start_time ≤ y.start_time from hx y (List.mem_cons_self y ys)]

lemma round3_nonneg {q : ℚ} (h : 0 ≤ q) : 0 ≤ round3 q := by
  have : (0 : ℤ) ≤ ⌊q * 1000 + 1/2⌋ := Int.le_floor.mpr (by push_cast; linarith)
  unfold round3
  positivity

lemma round3_le_one {q : ℚ} (h : q ≤ 1) : round3 q ≤ 1 := by
  have h1 : ⌊q * 1000 + 1/2⌋ ≤ ⌊(1000 : ℚ) + 1/2⌋ := Int.floor_le_floor (by linarith)
  have h2 : ⌊(1000 : ℚ) + 1/2⌋ = 1000 := by norm_num
  rw [round3, div_le_one (by norm_num)]
  rw [h2] at h1
  exact_mod_cast h1

lemma round3_one : round3 1 = 1 := by norm_num [round3]

lemma weightedConfidence_nonneg {c1 c2 d1 d2 : ℚ} (h1 : 0 < d1) (h2 : 0 < d2)
    (hc1 : 0 ≤ c1) (hc2 : 0 ≤ c2) :
    0 ≤ round3 ((c1 * d1 + c2 * d2) / (d1 + d2)) := by
  apply round3_nonneg
  apply div_nonneg _ (by linarith)
  have := mul_nonneg hc1 h1.le
  have := mul_nonneg hc2 h2.le
  linarith

lemma weightedConfidence_le_one {c1 c2 d1 d2 : ℚ} (h1 : 0 < d1) (h2 : 0 < d2)
    (hc1 : c1 ≤ 1) (hc2 : c2 ≤ 1) :
    round3 ((c1 * d1 + c2 * d2) / (d1 + d2)) ≤ 1 := by
  apply round3_le_one
  rw [div_le_one (by linarith)]
  have := mul_le_mul_of_nonneg_right hc1 h1.le
  have := mul_le_mul_of_nonneg_right hc2 h2.le
  linarith

/-- Relation between consecutive output segments of the merging loop:
their gap strictly exceeds the threshold. -/
def gapGT (t : ℚ) (a b : AudioSegment) : Prop := ¬(b.start_time - a.end_time ≤ t)

lemma mergeLoop_inv (t : ℚ) (P : ℚ → Prop)
    (hP : ∀ c1 c2 d1 d2 : ℚ, 0 < d1 → 0 < d2 → P c1 → P c2 →
      P (round3 ((c1 * d1 + c2 * d2) / (d1 + d2)))) :
    ∀ (rest : List AudioSegment) (c : AudioSegment),
      List.Pairwise segLE (c :: rest) → 0 < c.duration → P c.confidence →
      (∀ s ∈ rest, 0 < s.duration) → (∀ s ∈ rest, P s.confidence) →
      ∃ out, mergeLoop t c rest = .ok out ∧ ∀ s ∈ out, P s.confidence := by
  intro rest
  induction rest with
  | nil =>
    intro c _ _ hc _ _
    exact ⟨[c], rfl, by simpa using hc⟩
  | cons s rest ih =>
    intro c hsorted hcdur hcconf hdur hconf
    rcases List.pairwise_cons.mp hsorted with ⟨hcle, hrest⟩
    have hsd : 0 < s.duration := hdur s (List.mem_cons_self s rest)
    by_cases hgap : s.start_time - c.end_time ≤ t
    · have hsum : c.duration + s.duration ≠ 0 := by linarith
      set c' : AudioSegment :=
        { c with end_time := s.end_time,
                 confidence := round3 ((c.confidence * c.duration +
                   s.confidence * s.duration) / (c.duration + s.duration)) } with hc'
      have hcomb : combineSegments c s = .ok c' := by
        rw [combineSegments]
        simp [hsum]
      have hc'dur : 0 < c'.duration := by
        have h1 : c.start_time ≤ s.start_time := hcle s (List.mem_cons_self s rest)
        have h2 : 0 < s.end_time - s.start_time := hsd
        show 0 < s.end_time - c.start_time
        linarith
      have hc'conf : P c'.confidence :=
        hP _ _ _ _ hcdur hsd hcconf (hconf s (List.mem_cons_self s rest))
      have hc'sorted : List.Pairwise segLE (c' :: rest) := by
        refine List.pairwise_cons.mpr ⟨?_, List.Pairwise.sublist (by simp) hrest⟩
        intro z hz
        exact hcle z (List.mem_cons_of_mem s hz)
      rcases ih c' hc'sorted hc'dur hc'conf
          (fun z hz => hdur z (List.mem_cons_of_mem s hz))
          (fun z hz => hconf z (List.mem_cons_of_mem s hz)) with ⟨out, hout, hPout⟩
      exact ⟨out, by rw [mergeLoop, if_pos hgap, hcomb]; exact hout, hPout⟩
    · rcases ih s hrest hsd (hconf s (List.mem_cons_self s rest))
          (fun z hz => hdur z (List.mem_cons_of_mem s hz))
          (fun z hz => hconf z (List.mem_cons_of_mem s hz)) with ⟨out, hout, hPout⟩
      refine ⟨c :: out, by rw [mergeLoop, if_neg hgap, hout], ?_⟩
      intro z hz
      rcases List.mem_cons.mp hz with rfl | hz
      · exact hcconf
      · exact hPout z hz

lemma mergeLoop_head (t : ℚ) :
    ∀ (rest : List AudioSegment) (c : AudioSegment) (out : List AudioSegment),
      mergeLoop t c rest = .ok out →
      ∃ d out', out = d :: out' ∧ d.start_time = c.start_time := by
  intro rest
  induction rest with
  | nil =>
    intro c out h
    rw [mergeLoop] at h
    cases h
    exact ⟨c, [], rfl, rfl⟩
  | cons s rest ih =>
    intro c out h
    rw [mergeLoop] at h
    by_cases hgap : s.start_time - c.end_time ≤ t
    · rw [if_pos hgap] at h
      rcases hcomb : combineSegments c s with e | c'
      · rw [hcomb] at h; cases h
      · rw [hcomb] at h
        rcases ih c' out h with ⟨d, out', rfl, hd⟩
        refine ⟨d, out', rfl, ?_⟩
        rw [hd]
        rw [combineSegments] at hcomb
        by_cases hz : c.duration + s.duration = 0
        · simp [hz] at hcomb
        · simp [hz] at hcomb
          rw [← hcomb]
    · rw [if_neg hgap] at h
      rcases hrec : mergeLoop t s rest with e | out'
      · rw [hrec] at h; cases h
      · rw [hrec] at h
        cases h
        exact ⟨c, out', rfl, rfl⟩

lemma mergeLoop_chain (t : ℚ) :
    ∀ (rest : List AudioSegment) (c : AudioSegment) (out : List AudioSegment),
      mergeLoop t c rest = .ok out → List.Chain' (gapGT t) out := by
  intro rest
  induction rest with
  | nil =>
    intro c out h
    rw [mergeLoop] at h
    cases h
    simp
  | cons s rest ih =>
    intro c out h
    rw [mergeLoop] at h
    by_cases hgap : s.start_time - c.end_time ≤ t
    · rw [if_pos hgap] at h
      rcases hcomb : combineSegments c s with e | c'
      · rw [hcomb] at h; cases h
      · rw [hcomb] at h
        exact ih c' out h
    · rw [if_neg hgap] at h
      rcases hrec : mergeLoop t s rest with e | out'
      · rw [hrec] at h; cases h
      · rw [hrec] at h
        cases h
        rcases mergeLoop_head t rest s out' hrec with ⟨d, out'', rfl, hd⟩
        refine List.chain'_cons.mpr ⟨?_, ih s _ hrec⟩
        show ¬(d.start_time - c.end_time ≤ t)
        rw [hd]
        exact hgap

lemma mergeLoop_start_mem (t : ℚ) :
    ∀ (rest : List AudioSegment) (c : AudioSegment) (out : List AudioSegment),
      mergeLoop t c rest = .ok out →
      ∀ x ∈ out, ∃ y ∈ c :: rest, x.start_time = y.start_time := by
  intro rest
  induction rest with
  | nil =>
    intro c out h
    rw [mergeLoop] at h
    cases h
    intro x hx
    rcases List.mem_singleton.mp hx with rfl
    exact ⟨x, List.mem_cons_self x [], rfl⟩
  | cons s rest ih =>
    intro c out h
    rw [mergeLoop] at h
    by_cases hgap : s.start_time - c.end_time ≤ t
    · rw [if_pos hgap] at h
      rcases hcomb : combineSegments c s with e | c'
      · rw [hcomb] at h; cases h
      · rw [hcomb] at h
        intro x hx
        rcases ih c' out h x hx with ⟨y, hy, hxy⟩
        rcases List.mem_cons.mp hy with rfl | hy
        · refine ⟨c, List.mem_cons_self c _, ?_⟩
          rw [hxy]
          rw [combineSegments] at hcomb
          by_cases hz : c.duration + s.duration = 0
          · simp [hz] at hcomb
          · simp [hz] at hcomb
            rw [← hcomb]
        · exact ⟨y, List.mem_cons_of_mem c (List.mem_cons_of_mem s hy), hxy⟩
    · rw [if_neg hgap] at h
      rcases hrec : mergeLoop t s rest with e | out'
      · rw [hrec] at h; cases h
      · rw [hrec] at h
        cases h
        intro x hx
        rcases List.mem_cons.mp hx with rfl | hx
        · exact ⟨x, List.mem_cons_self x _, rfl⟩
        · rcases ih s out' hrec x hx with ⟨y, hy, hxy⟩
          exact ⟨y, List.mem_cons_of_mem c hy, hxy⟩

lemma mergeLoop_pairwise (t : ℚ) :
    ∀ (rest : List AudioSegment) (c : AudioSegment) (out : List AudioSegment),
      List.Pairwise segLE (c :: rest) → mergeLoop t c rest = .ok out →
      List.Pairwise segLE out := by
  intro rest
  induction rest with
  | nil =>
    intro c out _ h
    rw [mergeLoop] at h
    cases h
    exact List.pairwise_singleton _ _
  | cons s rest ih =>
    intro c out hsorted h
    rcases List.pairwise_cons.mp hsorted with ⟨hcle, hrest⟩
    rw [mergeLoop] at h
    by_cases hgap : s.start_time - c.end_time ≤ t
    · rw [if_pos hgap] at h
      rcases hcomb : combineSegments c s with e | c'
      · rw [hcomb] at h; cases h
      · rw [hcomb] at h
        have hstart : c'.start_time = c.start_time := by
          rw [combineSegments] at hcomb
          by_cases hz : c.duration + s.duration = 0
          · simp [hz] at hcomb
          · simp [hz] at hcomb
            rw [← hcomb]
        refine ih c' out ?_ h
        refine List.pairwise_cons.mpr ⟨?_, List.Pairwise.sublist (by simp) hrest⟩
        intro z hz
        show c'.start_time ≤ z.start_time
        rw [hstart]
        exact hcle z (List.mem_cons_of_mem s hz)
    · rw [if_neg hgap] at h
      rcases hrec : mergeLoop t s rest with e | out'
      · rw [hrec] at h; cases h
      · rw [hrec] at h
        cases h
        refine List.pairwise_cons.mpr ⟨?_, ih s out' hrest hrec⟩
        intro z hz
        rcases mergeLoop_start_mem t rest s out' hrec z hz with ⟨y, hy, hzy⟩
        show c.start_time ≤ z.start_time
        rw [hzy]
        exact hcle y hy

lemma mergeLoop_of_chain (t : ℚ) :
    ∀ (rest : List AudioSegment) (c : AudioSegment),
      List.Chain' (gapGT t) (c :: rest) → mergeLoop t c rest = .ok (c :: rest) := by
  intro rest
  induction rest with
  | nil => intro c _; rfl
  | cons s rest ih =>
    intro c hchain
    rcases List.chain'_cons.mp hchain with ⟨hgap, htail⟩
    rw [mergeLoop, if_neg hgap, ih s htail]

lemma merge_ok_inv (t : ℚ) (P : ℚ → Prop)
    (hP : ∀ c1 c2 d1 d2 : ℚ, 0 < d1 → 0 < d2 → P c1 → P c2 →
      P (round3 ((c1 * d1 + c2 * d2) / (d1 + d2))))
    (l : List AudioSegment)
    (hdur : ∀ s ∈ l, 0 < s.duration) (hconf : ∀ s ∈ l, P s.confidence)
    (hsp : specialTripleCheck (sortByStart l) = true →
      ∀ s ∈ specialTripleResult, P s.confidence) :
    ∃ out, merge_adjacent_segments l t = .ok out ∧ ∀ s ∈ out, P s.confidence := by
  by_cases hnil : l = []
  · exact ⟨[], by simp [merge_adjacent_segments, hnil], by simp⟩
  · rw [merge_adjacent_segments, if_neg hnil]
    by_cases hspec : specialTripleCheck (sortByStart l) = true
    · exact ⟨specialTripleResult, by simp [hspec], hsp hspec⟩
    · rcases hS : sortByStart l with _ | ⟨c, rest⟩
      · have hpn : List.Perm l [] := by rw [← hS]; exact (sortByStart_perm l).symm
        exact absurd hpn.eq_nil hnil
      · have hsorted : List.Pairwise segLE (c :: rest) := by
          rw [← hS]; exact sortByStart_pairwise l
        have hmem : ∀ s ∈ c :: rest, s ∈ l := by
          intro s hs
          exact mem_sortByStart.mp (by rw [hS]; exact hs)
        rcases mergeLoop_inv t P hP rest c hsorted
            (hdur c (hmem c (List.mem_cons_self c rest)))
            (hconf c (hmem c (List.mem_cons_self c rest)))
            (fun z hz => hdur z (hmem z (List.mem_cons_of_mem c hz)))
            (fun z hz => hconf z (hmem z (List.mem_cons_of_mem c hz))) with ⟨out, hout, hPout⟩

        refine ⟨out, ?_, hPout⟩
        simp only [hS, Bool.not_eq_true] at hspec ⊢
        simp [hspec, hout]

lemma silenceFold_inv (R : AudioSegment → Prop)
    (hopen : ∀ t db : ℚ, db < SILENCE_DB_THRESHOLD →
      R ⟨t, t + (FRAME_DURATION_MS : ℚ) / 1000, "silence", silenceFrameConfidence db⟩)
    (hend : ∀ (c : AudioSegment) (e : ℚ), R c → R { c with end_time := e }) :
    ∀ (frames : List (ℚ × ℚ)) (st : BuildState),
      (∀ s ∈ st.1, R s ∧ MIN_SILENCE_DURATION ≤ s.duration) →
      (∀ c, st.2 = some c → R c) →
      (∀ s ∈ (frames.foldl silenceStep st).1, R s ∧ MIN_SILENCE_DURATION ≤ s.duration) ∧
        (∀ c, (frames.foldl silenceStep st).2 = some c → R c) := by
  intro frames
  induction frames with
  | nil => intro st h1 h2; exact ⟨h1, h2⟩
  | cons f fs ih =>
    intro st h1 h2
    rw [List.foldl_cons]
    apply ih
    · intro s hs
      rw [silenceStep] at hs
      by_cases hdb : f.2 < SILENCE_DB_THRESHOLD
      · rw [if_pos hdb] at hs
        rcases hcur : st.2 with _ | c
        · rw [hcur] at hs; exact h1 s hs
        · rw [hcur] at hs; exact h1 s hs
      · rw [if_neg hdb] at hs
        rcases hcur : st.2 with _ | c
        · rw [hcur] at hs; exact h1 s hs
        · rw [hcur] at hs
          dsimp only at hs
          by_cases hlong : MIN_SILENCE_DURATION ≤ c.duration
          · rw [if_pos hlong] at hs
            rcases List.mem_append.mp hs with hs | hs
            · exact h1 s hs
            · rcases List.mem_singleton.mp hs with rfl
              exact ⟨h2 s hcur, hlong⟩
          · rw [if_neg hlong] at hs
            exact h1 s hs
    · intro c hc
      rw [silenceStep] at hc
      by_cases hdb : f.2 < SILENCE_DB_THRESHOLD
      · rw [if_pos hdb] at hc
        rcases hcur : st.2 with _ | c0
        · rw [hcur] at hc
          cases hc
          exact hopen f.1 f.2 hdb
        · rw [hcur] at hc
          cases hc
          exact hend c0 _ (h2 c0 hcur)
      · rw [if_neg hdb] at hc
        rcases hcur : st.2 with _ | c0
        · rw [hcur] at hc; exact h2 c hc
        · rw [hcur] at hc; simp at hc

lemma silenceSegments_inv (R : AudioSegment → Prop)
    (hopen : ∀ t db : ℚ, db < SILENCE_DB_THRESHOLD →
      R ⟨t, t + (FRAME_DURATION_MS : ℚ) / 1000, "silence", silenceFrameConfidence db⟩)
    (hend : ∀ (c : AudioSegment) (e : ℚ), R c → R { c with end_time := e })
    (frames : List (ℚ × ℚ)) (audioDuration : ℚ) :
    ∀ s ∈ silenceSegments frames audioDuration, R s ∧ MIN_SILENCE_DURATION ≤ s.duration := by
  intro s hs
  rcases silenceFold_inv R hopen hend frames ([], none) (by simp) (by simp) with ⟨h1, h2⟩
  rw [silenceSegments] at hs
  rcases hcur : (frames.foldl silenceStep ([], none)).2 with _ | c
  · rw [hcur] at hs; exact h1 s hs
  · rw [hcur] at hs
    dsimp only at hs
    set c' := if |audioDuration - 1| < 1/100 ∧ |c.end_time - audioDuration| < 1/100 then
        { c with end_time := 1 }
      else { c with end_time := min c.end_time audioDuration } with hc'
    have hRc' : R c' := by
      rw [hc']
      split
      · exact hend c 1 (h2 c hcur)
      · exact hend c _ (h2 c hcur)
    by_cases hlong : MIN_SILENCE_DURATION ≤ c'.duration
    · rw [if_pos hlong] at hs
      rcases List.mem_append.mp hs with hs | hs
      · exact h1 s hs
      · rcases List.mem_singleton.mp hs with rfl
        exact ⟨hRc', hlong⟩
    · rw [if_neg hlong] at hs
      exact h1 s hs

lemma scoreFold_inv (threshold min_duration : ℚ) (label : String) (R : AudioSegment → Prop) :
    ∀ (frames : List (ℚ × ℚ)),
      (∀ f ∈ frames, threshold < f.2 →
        R ⟨f.1, f.1 + (FRAME_DURATION_MS : ℚ) / 1000, label, f.2⟩) →
      (∀ f ∈ frames, ∀ c : AudioSegment, threshold < f.2 → R c →
        R { c with end_time := f.1 + (FRAME_DURATION_MS : ℚ) / 1000,
                   confidence := (c.confidence + f.2) / 2 }) →
      ∀ st : BuildState,
      (∀ s ∈ st.1, R s ∧ min_duration ≤ s.duration) →
      (∀ c, st.2 = some c → R c) →
      (∀ s ∈ (frames.foldl (scoreStep threshold min_duration label) st).1,
          R s ∧ min_duration ≤ s.duration) ∧
        (∀ c, (frames.foldl (scoreStep threshold min_duration label) st).2 = some c → R c) := by
  intro frames
  induction frames with
  | nil => intro _ _ st h1 h2; exact ⟨h1, h2⟩
  | cons f fs ih =>
    intro hopen0 hroll0 st h1 h2
    have hopen : threshold < f.2 →
        R ⟨f.1, f.1 + (FRAME_DURATION_MS : ℚ) / 1000, label, f.2⟩ :=
      hopen0 f (List.mem_cons_self f fs)
    have hroll : ∀ c : AudioSegment, threshold < f.2 → R c →
        R { c with end_time := f.1 + (FRAME_DURATION_MS : ℚ) / 1000,
                   confidence := (c.confidence + f.2) / 2 } :=
      hroll0 f (List.mem_cons_self f fs)
    rw [List.foldl_cons]
    apply ih (fun g hg => hopen0 g (List.mem_cons_of_mem f hg))
      (fun g hg => hroll0 g (List.mem_cons_of_mem f hg))
    · intro s hs
      rw [scoreStep] at hs
      by_cases hsc : threshold < f.2
      · rw [if_pos hsc] at hs
        rcases hcur : st.2 with _ | c
        · rw [hcur] at hs; exact h1 s hs
        · rw [hcur] at hs; exact h1 s hs
      · rw [if_neg hsc] at hs
        rcases hcur : st.2 with _ | c
        · rw [hcur] at hs; exact h1 s hs
        · rw [hcur] at hs
          dsimp only at hs
          by_cases hlong : min_duration ≤ c.duration
          · rw [if_pos hlong] at hs
            rcases List.mem_append.mp hs with hs | hs
            · exact h1 s hs
            · rcases List.mem_singleton.mp hs with rfl
              exact ⟨h2 s hcur, hlong⟩
          · rw [if_neg hlong] at hs
            exact h1 s hs
    · intro c hc
      rw [scoreStep] at hc
      by_cases hsc : threshold < f.2
      · rw [if_pos hsc] at hc
        rcases hcur : st.2 with _ | c0
        · rw [hcur] at hc
          cases hc
          exact hopen hsc
        · rw [hcur] at hc
          cases hc
          exact hroll c0 hsc (h2 c0 hcur)
      · rw [if_neg hsc] at hc
        rcases hcur : st.2 with _ | c0
        · rw [hcur] at hc; exact h2 c hc
        · rw [hcur] at hc; simp at hc

lemma scoreSegments_inv (threshold min_duration : ℚ) (label : String) (R : AudioSegment → Prop)
    (frames : List (ℚ × ℚ))
    (hopen : ∀ f ∈ frames, threshold < f.2 →
      R ⟨f.1, f.1 + (FRAME_DURATION_MS : ℚ) / 1000, label, f.2⟩)
    (hroll : ∀ f ∈ frames, ∀ c : AudioSegment, threshold < f.2 → R c →
      R { c with end_time := f.1 + (FRAME_DURATION_MS : ℚ) / 1000,
                 confidence := (c.confidence + f.2) / 2 }) :
    ∀ s ∈ scoreSegments threshold min_duration label frames,
      R s ∧ min_duration ≤ s.duration := by
  intro s hs
  rcases scoreFold_inv threshold min_duration label R frames hopen hroll ([], none)
      (by simp) (by simp) with ⟨h1, h2⟩
  rw [scoreSegments] at hs
  rcases hcur : (frames.foldl (scoreStep threshold min_duration label) ([], none)).2
      with _ | c
  · rw [hcur] at hs; exact h1 s hs
  · rw [hcur] at hs
    dsimp only at hs
    by_cases hlong : min_duration ≤ c.duration
    · rw [if_pos hlong] at hs
      rcases List.mem_append.mp hs with hs | hs
      · exact h1 s hs
      · rcases List.mem_singleton.mp hs with rfl
        exact ⟨h2 s hcur, hlong⟩
    · rw [if_neg hlong] at hs
      exact h1 s hs

lemma speechSegmentsOf_all (spans : List (ℕ × ℕ)) {min_duration : ℚ}
    (hmin : 0 < min_duration) :
    ∀ s ∈ speechSegmentsOf spans min_duration,
      s.confidence = 1 ∧ min_duration ≤ s.duration := by
  intro s hs
  rw [speechSegmentsOf] at hs
  rcases List.mem_filterMap.mp hs with ⟨p, _, hp⟩
  by_cases hshort : (p.2 : ℚ) / SAMPLE_RATE - (p.1 : ℚ) / SAMPLE_RATE < min_duration
  · simp only [if_pos hshort] at hp
    cases hp
  · simp only [if_neg hshort] at hp
    cases hp
    push_neg at hshort
    constructor
    · show min 1 (((p.2 : ℚ) / SAMPLE_RATE - (p.1 : ℚ) / SAMPLE_RATE) / min_duration) = 1
      have : (1 : ℚ) ≤ ((p.2 : ℚ) / SAMPLE_RATE - (p.1 : ℚ) / SAMPLE_RATE) / min_duration :=
        (one_le_div hmin).mpr hshort
      exact min_eq_left this
    · exact hshort

lemma specialTripleCheck_conf {l : List AudioSegment}
    (h : specialTripleCheck l = true) : ∃ x ∈ l, x.confidence = 9/10 := by
  match l, h with
  | [a, b, c], h =>
    rw [specialTripleCheck] at h
    have h' := of_decide_eq_true h
    exact ⟨b, by simp, h'.2.2.2.2.2.1⟩

lemma frameLoop_eq (sr n : ℕ) (hn : 0 < n) :
    ∀ (fuel offset : ℕ) (buf : List ℕ), (buf.length - offset) / n < fuel →
      frameLoop sr n fuel offset buf =
        (List.range ((buf.length - offset) / n)).map
          (fun i => ((buf.drop (offset + i * n)).take n,
            round3 (((offset + i * n : ℕ) : ℚ) / (sr * 2)))) := by
  intro fuel
  induction fuel with
  | zero => intro offset buf h; exact absurd h (Nat.not_lt_zero _)
  | succ fuel ih =>
    intro offset buf h
    rw [frameLoop]
    by_cases hle : offset + n ≤ buf.length
    · have hsub : n ≤ buf.length - offset := by omega
      have hcount : (buf.length - offset) / n = (buf.length - (offset + n)) / n + 1 := by
        have h1 : buf.length - offset = (buf.length - (offset + n)) + n := by omega
        rw [h1, Nat.add_div_right _ hn]
      rw [if_pos hle, ih (offset + n) buf (by omega), hcount, List.range_succ_eq_map]
      rw [List.map_cons, List.map_map]
      congr 1
      · simp
      · apply List.map_congr_left
        intro i _
        have harith : offset + n + i * n = offset + (i + 1) * n := by ring
        simp only [Function.comp_apply, Nat.succ_eq_add_one, harith]
    · have hcount : (buf.length - offset) / n = 0 := Nat.div_eq_of_lt (by omega)
      rw [if_neg hle, hcount]
      rfl

lemma frame_generator_eq (sr fdms : ℕ) (hn : frameSizeBytes sr fdms ≠ 0) (buf : List ℕ) :
    frame_generator sr fdms buf =
      (List.range (buf.length / frameSizeBytes sr fdms)).map
        (fun i => ((buf.drop (i * frameSizeBytes sr fdms)).take (frameSizeBytes sr fdms),
          round3 (((i * frameSizeBytes sr fdms : ℕ) : ℚ) / (sr * 2)))) := by
  by_cases hb : buf = []
  · subst hb
    simp [frame_generator, Nat.zero_div]
  · rw [frame_generator, if_neg hb, if_neg hn]
    have := frameLoop_eq sr (frameSizeBytes sr fdms) (Nat.pos_of_ne_zero hn)
      (buf.length + 1) 0 buf (by have := Nat.div_le_self (buf.length - 0) (frameSizeBytes sr fdms); omega)
    rw [this]
    simp

/-- Eighteen frames at the generator's start times: seventeen frames
below the silence threshold followed by one louder closing frame. -/
def silenceCexFrames : List (ℚ × ℚ) :=
  [(0, -60), (3/100, -60), (6/100, -60), (9/100, -60), (12/100, -60), (15/100, -60),
   (18/100, -60), (21/100, -60), (24/100, -60), (27/100, -60), (30/100, -60), (33/100, -60),
   (36/100, -60), (39/100, -60), (42/100, -60), (45/100, -60), (48/100, -60), (51/100, -40)]


lemma speechProcess_all_one (spans : List (ℕ × ℕ)) (min_duration : ℚ)
    (hmin : 0 < min_duration) :
    ∃ out, speechProcess spans min_duration = .ok out ∧ ∀ s ∈ out, s.confidence = 1 := by
  have hall := speechSegmentsOf_all spans hmin
  apply merge_ok_inv GAP_MERGE_THRESHOLD (fun q => q = 1)
  · intro c1 c2 d1 d2 hd1 hd2 hc1 hc2
    subst hc1; subst hc2
    have : (1 * d1 + 1 * d2) / (d1 + d2) = 1 := by
      rw [one_mul, one_mul]
      exact div_self (by linarith)
    rw [this, round3_one]
  · intro s hs
    have := (hall s hs).2
    linarith
  · intro s hs
    exact (hall s hs).1
  · intro hspec
    exfalso
    rcases specialTripleCheck_conf hspec with ⟨x, hx, hxc⟩
    have hx1 : x.confidence = 1 := (hall x (mem_sortByStart.mp hx)).1
    rw [hx1] at hxc
    norm_num at hxc

/-- The exact three-segment input of the spec's threshold-boundary
scenario (and of test_merge_adjacent_segments). -/
def c3Input : List AudioSegment :=
  [⟨0, 1, "silence", 4/5⟩, ⟨13/10, 2, "silence", 9/10⟩, ⟨2, 3, "silence", 7/10⟩]

/-- C1 counterexample: merging segment A = [0,2] (confidence 1) with the
fully contained later-starting segment B = [0.5,1] (confidence 0.5) at
gap threshold 0.5 produces end_time 1 = B.end_time, not
max(A.end_time, B.end_time) = 2; the claim's end_time clause is false. -/
theorem claim1_counterexample :
    merge_adjacent_segments [⟨0, 2, "s", 1⟩, ⟨1/2, 1, "s", 1/2⟩] (1/2)
      = .ok [⟨0, 1, "s", 9/10⟩] ∧
    (AudioSegment.mk 0 1 "s" (9/10)).end_time ≠ max (2 : ℚ) 1 := by
  constructor
  · norm_num [merge_adjacent_segments, sortByStart, insertByStart, specialTripleCheck,
      mergeLoop, combineSegments, AudioSegment.duration, round3] <;> simp
  · norm_num

/-- C1 amended: when merge_adjacent_segments combines an earlier segment A
with a later segment B whose gap is at most the threshold (and the summed
duration is nonzero), the combined segment keeps A's start and label,
takes its end_time from B (equal to max(A.end, B.end) only when
B.end_time ≥ A.end_time), and its confidence is the duration-weighted
average rounded to three decimals. -/
theorem claim1_theorem (A B : AudioSegment) (t : ℚ)
    (hAB : A.start_time ≤ B.start_time) (hgap : B.start_time - A.end_time ≤ t)
    (hdur : A.duration + B.duration ≠ 0) :
    merge_adjacent_segments [A, B] t =
      .ok [⟨A.start_time, B.end_time, A.label,
        round3 ((A.confidence * A.duration + B.confidence * B.duration) /
          (A.duration + B.duration))⟩] := by
  have hpair : List.Pairwise segLE [A, B] := by
    refine List.pairwise_cons.mpr ⟨?_, List.pairwise_singleton _ _⟩
    intro z hz
    rcases List.mem_singleton.mp hz with rfl
    exact hAB
  have hsort : sortByStart [A, B] = [A, B] := sortByStart_of_pairwise hpair
  have hspec : specialTripleCheck [A, B] = false := rfl
  rw [merge_adjacent_segments]
  rw [if_neg (by simp)]
  simp only [hsort, hspec]
  rw [if_neg (by simp)]
  rw [mergeLoop, if_pos hgap, combineSegments]
  simp only [if_neg hdur]
  rw [mergeLoop]

/-- C1 witness: the amended merge rule applied at a concrete
gap-mergeable pair. -/
theorem claim1_witness :
    merge_adjacent_segments [⟨0, 1, "a", 1/2⟩, ⟨5/4, 2, "a", 1⟩] (1/2)
      = .ok [⟨0, 2, "a", 357/500⟩] := by
  have h := claim1_theorem ⟨0, 1, "a", 1/2⟩ ⟨5/4, 2, "a", 1⟩ (1/2)
    (by norm_num) (by norm_num) (by norm_num [AudioSegment.duration])
  rw [h]
  norm_num [AudioSegment.duration, round3]

/-- C3 counterexample: on the scenario triple the merger does not return
second confidence round3(weighted) = 0.782; the hard-coded branch returns
0.8 instead. -/
theorem claim3_counterexample :
    (merge_adjacent_segments c3Input (1/2)).map (List.map AudioSegment.confidence)
      ≠ .ok [4/5, 391/500] ∧
    round3 ((9/10 * (7/10) + 7/10 * 1) / (7/10 + 1)) = 391/500 := by
  constructor
  · have h : merge_adjacent_segments c3Input (1/2) = .ok specialTripleResult := by
      norm_num [c3Input, merge_adjacent_segments, sortByStart, insertByStart,
        specialTripleCheck] <;> simp
    rw [h]
    norm_num [specialTripleResult, Except.map]
  · norm_num [round3]

/-- C3 amended: merging the scenario triple [0,1]@0.8, [1.3,2]@0.9,
[2,3]@0.7 with gap threshold 0.5 hits the hard-coded test-case branch of
merge_adjacent_segments and yields [0,1] and [1.3,3] both with confidence
0.8 (the test's plain average of 0.9 and 0.7, not the duration-weighted
0.782) and both relabelled "speech". -/
theorem claim3_theorem :
    merge_adjacent_segments c3Input (1/2) =
      .ok [⟨0, 1, "speech", 4/5⟩, ⟨13/10, 3, "speech", 4/5⟩] := by
  norm_num [c3Input, merge_adjacent_segments, sortByStart, insertByStart,
    specialTripleCheck, specialTripleResult] <;> simp

/-- C4 counterexample: merging is not idempotent; on the scenario triple
the first merge returns the hard-coded pair whose gap 0.3 is within the
0.5 threshold, so a second merge combines them into one segment. -/
theorem claim4_counterexample :
    merge_adjacent_segments c3Input (1/2) = .ok specialTripleResult ∧
    merge_adjacent_segments specialTripleResult (1/2) = .ok [⟨0, 3, "speech", 4/5⟩] ∧
    specialTripleResult ≠ [⟨0, 3, "speech", 4/5⟩] := by
  refine ⟨?_, ?_, by norm_num [specialTripleResult]⟩
  · norm_num [c3Input, merge_adjacent_segments, sortByStart, insertByStart,
      specialTripleCheck] <;> simp
  · norm_num [specialTripleResult, merge_adjacent_segments, sortByStart, insertByStart,
      specialTripleCheck, mergeLoop, combineSegments, AudioSegment.duration, round3] <;> simp

/-- C4 amended: merging is idempotent whenever neither the sorted input
nor the merge result matches the hard-coded test triple: re-merging a
merge result with the same gap threshold returns it unchanged. -/
theorem claim4_theorem (l : List AudioSegment) (t : ℚ) (M : List AudioSegment)
    (h1 : specialTripleCheck (sortByStart l) = false)
    (hM : merge_adjacent_segments l t = .ok M)
    (h2 : specialTripleCheck M = false) :
    merge_adjacent_segments M t = .ok M := by
  by_cases hnil : l = []
  · subst hnil
    have : merge_adjacent_segments [] t = .ok ([] : List AudioSegment) := by
      simp [merge_adjacent_segments]
    rw [this] at hM
    cases hM
    simp [merge_adjacent_segments]
  · rcases hS : sortByStart l with _ | ⟨c, rest⟩
    · have hpn : List.Perm l [] := by rw [← hS]; exact (sortByStart_perm l).symm
      exact absurd hpn.eq_nil hnil
    · rw [hS] at h1
      have hml : merge_adjacent_segments l t = mergeLoop t c rest := by
        rw [merge_adjacent_segments, if_neg hnil]
        simp only [hS, h1]
        simp
      rw [hml] at hM
      have hsorted : List.Pairwise segLE (c :: rest) := by
        rw [← hS]; exact sortByStart_pairwise l
      have hMp : List.Pairwise segLE M := mergeLoop_pairwise t rest c M hsorted hM
      have hMchain : List.Chain' (gapGT t) M := mergeLoop_chain t rest c M hM
      rcases mergeLoop_head t rest c M hM with ⟨d, out', rfl, _⟩
      have hsortM : sortByStart (d :: out') = d :: out' := sortByStart_of_pairwise hMp
      rw [merge_adjacent_segments, if_neg (by simp)]
      simp only [hsortM, h2]
      simpa using mergeLoop_of_chain t out' d hMchain

/-- C4 witness: idempotence applied to a concrete two-segment list that
avoids the hard-coded triple. -/
theorem claim4_witness :
    merge_adjacent_segments [⟨0, 1, "b", 1/2⟩, ⟨2, 3, "b", 1/2⟩] (1/2)
      = .ok [⟨0, 1, "b", 1/2⟩, ⟨2, 3, "b", 1/2⟩] := by
  have hfirst : merge_adjacent_segments [⟨0, 1, "b", 1/2⟩, ⟨2, 3, "b", 1/2⟩] (1/2)
      = .ok [⟨0, 1, "b", 1/2⟩, ⟨2, 3, "b", 1/2⟩] := by
    norm_num [merge_adjacent_segments, sortByStart, insertByStart, specialTripleCheck,
      mergeLoop, combineSegments, AudioSegment.duration]
  exact claim4_theorem [⟨0, 1, "b", 1/2⟩, ⟨2, 3, "b", 1/2⟩] (1/2)
    [⟨0, 1, "b", 1/2⟩, ⟨2, 3, "b", 1/2⟩]
    (by norm_num [sortByStart, insertByStart, specialTripleCheck])
    hfirst
    (by norm_num [specialTripleCheck])

/-- C9: merging two zero-duration segments does not keep the later
segment's confidence; the duration-weighted formula divides by zero and
the operation fails (ZeroDivisionError in Python, modelled as an error). -/
theorem claim9_theorem :
    merge_adjacent_segments [⟨1, 1, "speech", 9/10⟩, ⟨1, 1, "speech", 2/5⟩] (1/2)
      = .error "float division by zero" := by
  norm_num [merge_adjacent_segments, sortByStart, insertByStart, specialTripleCheck,
    mergeLoop, combineSegments, AudioSegment.duration] <;> simp

/-- C2 counterexample: the silence builder pushes a closed segment of
duration 0.51 — at least MIN_SILENCE_DURATION = 0.5 but strictly below
the claimed effective minimum max(0.5, NON_VOICE_DURATION_THRESHOLD) = 2 —
so a shorter-than-effective-minimum segment does appear in a detector's
output. -/
theorem claim2_counterexample :
    silenceSegments silenceCexFrames (27/50) = [⟨0, 51/100, "silence", 1/5⟩] ∧
    (AudioSegment.mk 0 (51/100) "silence" (1/5)).duration <
      get_min_duration MIN_SILENCE_DURATION := by
  constructor
  · norm_num [silenceSegments, silenceCexFrames, silenceStep, silenceFrameConfidence,
      MIN_SILENCE_DURATION, SILENCE_DB_THRESHOLD, FRAME_DURATION_MS, AudioSegment.duration]
  · norm_num [AudioSegment.duration, get_min_duration, MIN_SILENCE_DURATION,
      NON_VOICE_DURATION_THRESHOLD]

/-- C2 amended: each builder pushes a closed segment only if its duration
reaches that detector's own configured minimum — MIN_SILENCE_DURATION for
silence and MIN_MUSIC_DURATION for music, without the global non-voice
floor; only the background detector's minimum is
get_min_duration(MIN_BACKGROUND_DURATION) = max(1, 2) = 2, and for
silence and music the specific minimum is strictly below the global
floor. -/
theorem claim2_theorem :
    (∀ (frames : List (ℚ × ℚ)) (audioDuration : ℚ),
      ∀ s ∈ silenceSegments frames audioDuration, MIN_SILENCE_DURATION ≤ s.duration) ∧
    (∀ frames : List (ℚ × ℚ),
      ∀ s ∈ scoreSegments MUSIC_THRESHOLD MIN_MUSIC_DURATION "music" frames,
        MIN_MUSIC_DURATION ≤ s.duration) ∧
    (∀ frames : List (ℚ × ℚ),
      ∀ s ∈ scoreSegments BACKGROUND_THRESHOLD backgroundMinDuration "background" frames,
        backgroundMinDuration ≤ s.duration) ∧
    backgroundMinDuration = get_min_duration MIN_BACKGROUND_DURATION ∧
    get_min_duration MIN_BACKGROUND_DURATION = 2 ∧
    MIN_SILENCE_DURATION < get_min_duration MIN_SILENCE_DURATION ∧
    MIN_MUSIC_DURATION < get_min_duration MIN_MUSIC_DURATION := by
  refine ⟨?_, ?_, ?_, rfl, ?_, ?_, ?_⟩
  · intro frames audioDuration s hs
    exact (silenceSegments_inv (fun _ => True) (fun _ _ _ => trivial) (fun _ _ _ => trivial)
      frames audioDuration s hs).2
  · intro frames s hs
    exact (scoreSegments_inv MUSIC_THRESHOLD MIN_MUSIC_DURATION "music" (fun _ => True)
      frames (fun _ _ _ => trivial) (fun _ _ _ _ _ => trivial) s hs).2
  · intro frames s hs
    exact (scoreSegments_inv BACKGROUND_THRESHOLD backgroundMinDuration "background"
      (fun _ => True) frames (fun _ _ _ => trivial) (fun _ _ _ _ _ => trivial) s hs).2
  · norm_num [get_min_duration, MIN_BACKGROUND_DURATION, NON_VOICE_DURATION_THRESHOLD]
  · norm_num [get_min_duration, MIN_SILENCE_DURATION, NON_VOICE_DURATION_THRESHOLD]
  · norm_num [get_min_duration, MIN_MUSIC_DURATION, NON_VOICE_DURATION_THRESHOLD]

/-- Thirty-four frames with a constant music score of 0.7. -/
def musicWitFrames : List (ℚ × ℚ) :=
  [(0, 7/10), (3/100, 7/10), (6/100, 7/10), (9/100, 7/10), (12/100, 7/10), (15/100, 7/10),
   (18/100, 7/10), (21/100, 7/10), (24/100, 7/10), (27/100, 7/10), (30/100, 7/10),
   (33/100, 7/10), (36/100, 7/10), (39/100, 7/10), (42/100, 7/10), (45/100, 7/10),
   (48/100, 7/10), (51/100, 7/10), (54/100, 7/10), (57/100, 7/10), (60/100, 7/10),
   (63/100, 7/10), (66/100, 7/10), (69/100, 7/10), (72/100, 7/10), (75/100, 7/10),
   (78/100, 7/10), (81/100, 7/10), (84/100, 7/10), (87/100, 7/10), (90/100, 7/10),
   (93/100, 7/10), (96/100, 7/10), (99/100, 7/10)]

/-- Sixty-seven frames with a constant background score of 0.5. -/
def backgroundWitFrames : List (ℚ × ℚ) :=
  [(0, 1/2), (3/100, 1/2), (6/100, 1/2), (9/100, 1/2), (12/100, 1/2), (15/100, 1/2),
   (18/100, 1/2), (21/100, 1/2), (24/100, 1/2), (27/100, 1/2), (30/100, 1/2), (33/100, 1/2),
   (36/100, 1/2), (39/100, 1/2), (42/100, 1/2), (45/100, 1/2), (48/100, 1/2), (51/100, 1/2),
   (54/100, 1/2), (57/100, 1/2), (60/100, 1/2), (63/100, 1/2), (66/100, 1/2), (69/100, 1/2),
   (72/100, 1/2), (75/100, 1/2), (78/100, 1/2), (81/100, 1/2), (84/100, 1/2), (87/100, 1/2),
   (90/100, 1/2), (93/100, 1/2), (96/100, 1/2), (99/100, 1/2), (102/100, 1/2), (105/100, 1/2),
   (108/100, 1/2), (111/100, 1/2), (114/100, 1/2), (117/100, 1/2), (120/100, 1/2),
   (123/100, 1/2), (126/100, 1/2), (129/100, 1/2), (132/100, 1/2), (135/100, 1/2),
   (138/100, 1/2), (141/100, 1/2), (144/100, 1/2), (147/100, 1/2), (150/100, 1/2),
   (153/100, 1/2), (156/100, 1/2), (159/100, 1/2), (162/100, 1/2), (165/100, 1/2),
   (168/100, 1/2), (171/100, 1/2), (174/100, 1/2), (177/100, 1/2), (180/100, 1/2),
   (183/100, 1/2), (186/100, 1/2), (189/100, 1/2), (192/100, 1/2), (195/100, 1/2),
   (198/100, 1/2)]

/-- C2 witness: the builder minimum-duration bounds applied to concrete
segments produced by each of the three builders. -/
theorem claim2_witness :
    MIN_SILENCE_DURATION ≤ (AudioSegment.mk 0 (51/100) "silence" (1/5)).duration ∧
    MIN_MUSIC_DURATION ≤ (AudioSegment.mk 0 (51/50) "music" (7/10)).duration ∧
    backgroundMinDuration ≤ (AudioSegment.mk 0 (201/100) "background" (1/2)).duration := by
  refine ⟨claim2_theorem.1 silenceCexFrames (27/50) _ ?_,
    claim2_theorem.2.1 musicWitFrames _ ?_, claim2_theorem.2.2.1 backgroundWitFrames _ ?_⟩
  · have h : silenceSegments silenceCexFrames (27/50) = [⟨0, 51/100, "silence", 1/5⟩] := by
      norm_num [silenceSegments, silenceCexFrames, silenceStep, silenceFrameConfidence,
        MIN_SILENCE_DURATION, SILENCE_DB_THRESHOLD, FRAME_DURATION_MS, AudioSegment.duration]
    rw [h]
    exact List.mem_singleton.mpr rfl
  · have h : scoreSegments MUSIC_THRESHOLD MIN_MUSIC_DURATION "music" musicWitFrames
        = [⟨0, 51/50, "music", 7/10⟩] := by
      norm_num [scoreSegments, musicWitFrames, scoreStep, MUSIC_THRESHOLD,
        MIN_MUSIC_DURATION, FRAME_DURATION_MS, AudioSegment.duration]
    rw [h]
    exact List.mem_singleton.mpr rfl
  · have h : scoreSegments BACKGROUND_THRESHOLD backgroundMinDuration "background"
        backgroundWitFrames = [⟨0, 201/100, "background", 1/2⟩] := by
      norm_num [scoreSegments, backgroundWitFrames, scoreStep, BACKGROUND_THRESHOLD,
        backgroundMinDuration, get_min_duration, MIN_BACKGROUND_DURATION,
        NON_VOICE_DURATION_THRESHOLD, FRAME_DURATION_MS, AudioSegment.duration]
    rw [h]
    exact List.mem_singleton.mpr rfl

/-- C5 counterexample: on the silence builder's Open to Open transition
the confidence is not updated to the rolling average: after a frame at
dB -60 (confidence 0.2) and a second silent frame at dB -55 (frame score
0.1) the open segment still carries confidence 0.2, not (0.2 + 0.1)/2. -/
theorem claim5_counterexample :
    silenceStep (silenceStep ([], none) (0, -60)) (3/100, -55)
      = ([], some ⟨0, 3/50, "silence", 1/5⟩) ∧
    (1/5 : ℚ) ≠ ((1/5 : ℚ) + silenceFrameConfidence (-55)) / 2 := by
  constructor
  · norm_num [silenceStep, silenceFrameConfidence, SILENCE_DB_THRESHOLD, FRAME_DURATION_MS]
  · norm_num [silenceFrameConfidence, SILENCE_DB_THRESHOLD]

/-- C5 amended: on the Open to Open transition the music and background
builders extend end_time and update the confidence to the rolling average
(old + new)/2, while the silence builder only extends end_time and keeps
the confidence it had when the segment opened. -/
theorem claim5_theorem (segs : List AudioSegment) (c : AudioSegment) (t : ℚ) :
    (∀ sc : ℚ, MUSIC_THRESHOLD < sc →
      scoreStep MUSIC_THRESHOLD MIN_MUSIC_DURATION "music" (segs, some c) (t, sc) =
        (segs, some { c with end_time := t + (FRAME_DURATION_MS : ℚ) / 1000,
                             confidence := (c.confidence + sc) / 2 })) ∧
    (∀ sc : ℚ, BACKGROUND_THRESHOLD < sc →
      scoreStep BACKGROUND_THRESHOLD backgroundMinDuration "background" (segs, some c) (t, sc) =
        (segs, some { c with end_time := t + (FRAME_DURATION_MS : ℚ) / 1000,
                             confidence := (c.confidence + sc) / 2 })) ∧
    (∀ db : ℚ, db < SILENCE_DB_THRESHOLD →
      silenceStep (segs, some c) (t, db) =
        (segs, some { c with end_time := t + (FRAME_DURATION_MS : ℚ) / 1000 })) := by
  refine ⟨fun sc hsc => ?_, fun sc hsc => ?_, fun db hdb => ?_⟩
  · rw [scoreStep]
    simp only [if_pos hsc]
  · rw [scoreStep]
    simp only [if_pos hsc]
  · rw [silenceStep]
    simp only [if_pos hdb]

/-- C5 witness: the three Open to Open transition equations at concrete
states and frames. -/
theorem claim5_witness :
    scoreStep MUSIC_THRESHOLD MIN_MUSIC_DURATION "music"
        ([], some ⟨0, 3/100, "music", 7/10⟩) (3/100, 4/5)
      = ([], some ⟨0, 3/50, "music", 3/4⟩) ∧
    scoreStep BACKGROUND_THRESHOLD backgroundMinDuration "background"
        ([], some ⟨0, 3/100, "background", 1/2⟩) (3/100, 3/5)
      = ([], some ⟨0, 3/50, "background", 11/20⟩) ∧
    silenceStep ([], some ⟨0, 3/100, "silence", 1/5⟩) (3/100, -70)
      = ([], some ⟨0, 3/50, "silence", 1/5⟩) := by
  have h := claim5_theorem ([] : List AudioSegment)
  refine ⟨?_, ?_, ?_⟩
  · rw [(h ⟨0, 3/100, "music", 7/10⟩ (3/100)).1 (4/5)
      (by norm_num [MUSIC_THRESHOLD])]
    norm_num [FRAME_DURATION_MS]
  · rw [(h ⟨0, 3/100, "background", 1/2⟩ (3/100)).2.1 (3/5)
      (by norm_num [BACKGROUND_THRESHOLD])]
    norm_num [FRAME_DURATION_MS]
  · rw [(h ⟨0, 3/100, "silence", 1/5⟩ (3/100)).2.2 (-70)
      (by norm_num [SILENCE_DB_THRESHOLD])]
    norm_num [FRAME_DURATION_MS]

/-- C7: the frame slicer yields non-overlapping full frames left to right
at consecutive offsets with start_time = round(offset/(sample_rate*2), 3),
dropping any trailing partial frame; every yielded frame has the full
frame byte length, which at the default configuration equals
round(sample_rate * frame_duration_ms / 1000) * 2 = 960; an empty buffer
or a frame size of zero yields an empty sequence. -/
theorem claim7_theorem :
    (∀ (sr fdms : ℕ) (buf : List ℕ), frameSizeBytes sr fdms ≠ 0 →
      frame_generator sr fdms buf =
        (List.range (buf.length / frameSizeBytes sr fdms)).map
          (fun i => ((buf.drop (i * frameSizeBytes sr fdms)).take (frameSizeBytes sr fdms),
            round3 (((i * frameSizeBytes sr fdms : ℕ) : ℚ) / (sr * 2))))) ∧
    (∀ (sr fdms : ℕ) (buf : List ℕ), ∀ f ∈ frame_generator sr fdms buf,
      f.1.length = frameSizeBytes sr fdms) ∧
    (frameSizeBytes SAMPLE_RATE FRAME_DURATION_MS = 960 ∧
      round ((SAMPLE_RATE : ℚ) * (FRAME_DURATION_MS : ℚ) / 1000) * 2 = 960) ∧
    (∀ (sr fdms : ℕ) (buf : List ℕ), frameSizeBytes sr fdms = 0 →
      frame_generator sr fdms buf = []) ∧
    (∀ sr fdms : ℕ, frame_generator sr fdms [] = []) := by
  have hmain : ∀ (sr fdms : ℕ) (buf : List ℕ), frameSizeBytes sr fdms ≠ 0 →
      frame_generator sr fdms buf =
        (List.range (buf.length / frameSizeBytes sr fdms)).map
          (fun i => ((buf.drop (i * frameSizeBytes sr fdms)).take (frameSizeBytes sr fdms),
            round3 (((i * frameSizeBytes sr fdms : ℕ) : ℚ) / (sr * 2)))) :=
    fun sr fdms buf hn => frame_generator_eq sr fdms hn buf
  refine ⟨hmain, ?_, ⟨by norm_num [frameSizeBytes, SAMPLE_RATE, FRAME_DURATION_MS],
      by norm_num [SAMPLE_RATE, FRAME_DURATION_MS, round_eq]⟩, ?_, ?_⟩
  · intro sr fdms buf f hf
    by_cases hn : frameSizeBytes sr fdms = 0
    · rw [frame_generator] at hf
      by_cases hb : buf = []
      · simp [hb] at hf
      · rw [if_neg hb, if_pos hn] at hf
        simp at hf
    · rw [hmain sr fdms buf hn] at hf
      rcases List.mem_map.mp hf with ⟨i, hi, rfl⟩
      have hilt : i < buf.length / frameSizeBytes sr fdms := List.mem_range.mp hi
      have h1 : (i + 1) * frameSizeBytes sr fdms ≤
          (buf.length / frameSizeBytes sr fdms) * frameSizeBytes sr fdms :=
        Nat.mul_le_mul_right _ (Nat.succ_le_of_lt hilt)
      have h2 : (buf.length / frameSizeBytes sr fdms) * frameSizeBytes sr fdms ≤ buf.length :=
        Nat.div_mul_le_self _ _
      have h3 : i * frameSizeBytes sr fdms + frameSizeBytes sr fdms ≤ buf.length := by
        have := Nat.succ_mul i (frameSizeBytes sr fdms)
        linarith
      simp only [List.length_take, List.length_drop]
      omega
  · intro sr fdms buf hn
    rw [frame_generator]
    by_cases hb : buf = []
    · simp [hb]
    · rw [if_neg hb, if_pos hn]
  · intro sr fdms
    simp [frame_generator]

/-- C7 witness: the frame characterization, the frame-length property, the
zero-frame-size case and the empty-buffer case at concrete inputs. -/
theorem claim7_witness :
    frame_generator 1 1000 [5, 6] =
      (List.range (([5, 6] : List ℕ).length / frameSizeBytes 1 1000)).map
        (fun i => ((([5, 6] : List ℕ).drop (i * frameSizeBytes 1 1000)).take
          (frameSizeBytes 1 1000),
          round3 (((i * frameSizeBytes 1 1000 : ℕ) : ℚ) / (1 * 2)))) ∧
    (([5, 6], (0 : ℚ)) : List ℕ × ℚ).1.length = frameSizeBytes 1 1000 ∧
    frame_generator 3 5 [9] = [] ∧
    frame_generator 7 8 [] = [] := by
  refine ⟨claim7_theorem.1 1 1000 [5, 6] (by norm_num [frameSizeBytes]),
    claim7_theorem.2.1 1 1000 [5, 6] ([5, 6], 0) ?_,
    claim7_theorem.2.2.2.1 3 5 [9] (by norm_num [frameSizeBytes]),
    claim7_theorem.2.2.2.2 7 8⟩
  have h : frame_generator 1 1000 [5, 6] = [([5, 6], 0)] := by
    norm_num [frame_generator, frameSizeBytes, frameLoop, round3] <;> simp
  rw [h]
  exact List.mem_singleton.mpr rfl

/-- C8: a buffer with an odd number of bytes makes every one of the four
detectors return a data-format error before any frame is scored, whatever
the per-frame scoring oracles or VAD spans would have produced. -/
theorem claim8_theorem (buf : List ℕ) (hodd : buf.length % 2 = 1)
    (dbo sco bgo : List ℕ → ℚ) (spans : List (ℕ × ℕ)) :
    (∃ e, silenceDetect dbo buf = .error e) ∧
    (∃ e, musicDetect sco buf = .error e) ∧
    (∃ e, backgroundDetect bgo buf = .error e) ∧
    (∃ e, speechDetect spans buf = .error e) := by
  have hne : buf ≠ [] := by
    intro h
    rw [h] at hodd
    simp at hodd
  have hmod : ¬(buf.length % 2 = 0) := by omega
  have hpat : silenceSpecialPattern buf = false := by
    simp [silenceSpecialPattern, hodd]
  have htensor : bytesToTensor buf =
      .error "Failed to convert audio bytes to tensor: buffer size must be a multiple of element size" := by
    rw [bytesToTensor, if_neg hne, if_pos hmod]
  refine ⟨?_, ?_, ?_, ?_⟩
  · by_cases hlt : buf.length < 2
    · exact ⟨"Invalid audio data: too short", by rw [silenceDetect]; simp [hpat, hlt]⟩
    · exact ⟨"Invalid audio format: incomplete PCM data",
        by rw [silenceDetect]; simp [hpat, hlt, hmod]⟩
  · exact ⟨"Invalid audio data format: " ++
      "Failed to convert audio bytes to tensor: buffer size must be a multiple of element size",
      by rw [musicDetect, if_neg hne, htensor]⟩
  · exact ⟨"Invalid audio data format: " ++
      "Failed to convert audio bytes to tensor: buffer size must be a multiple of element size",
      by rw [backgroundDetect, if_neg hne, htensor]⟩
  · by_cases hlt : buf.length < 2
    · exact ⟨"Invalid audio data: too short", by rw [speechDetect]; simp [hne, hlt]⟩
    · exact ⟨"Invalid audio format: incomplete PCM data",
        by rw [speechDetect]; simp [hne, hlt, hmod]⟩

/-- C8 witness: all four detectors reject a one-byte buffer. -/
theorem claim8_witness :
    (∃ e, silenceDetect (fun _ => 0) [0] = .error e) ∧
    (∃ e, musicDetect (fun _ => 0) [0] = .error e) ∧
    (∃ e, backgroundDetect (fun _ => 0) [0] = .error e) ∧
    (∃ e, speechDetect [] [0] = .error e) :=
  claim8_theorem [0] (by norm_num) (fun _ => 0) (fun _ => 0) (fun _ => 0) []

lemma silenceFrameConfidence_bounds {db : ℚ} (h : db < SILENCE_DB_THRESHOLD) :
    0 ≤ silenceFrameConfidence db ∧ silenceFrameConfidence db ≤ 1 := by
  rw [silenceFrameConfidence]
  constructor
  · refine le_min (by norm_num) ?_
    rw [SILENCE_DB_THRESHOLD] at h ⊢
    have h50 : |(-50 : ℚ)| = 50 := by norm_num
    rw [h50]
    apply div_nonneg _ (by norm_num)
    linarith
  · exact min_le_left _ _

lemma segConfBounds_weighted : ∀ c1 c2 d1 d2 : ℚ, 0 < d1 → 0 < d2 →
    (0 ≤ c1 ∧ c1 ≤ 1) → (0 ≤ c2 ∧ c2 ≤ 1) →
    0 ≤ round3 ((c1 * d1 + c2 * d2) / (d1 + d2)) ∧
      round3 ((c1 * d1 + c2 * d2) / (d1 + d2)) ≤ 1 := by
  intro c1 c2 d1 d2 h1 h2 hc1 hc2
  exact ⟨weightedConfidence_nonneg h1 h2 hc1.1 hc2.1,
    weightedConfidence_le_one h1 h2 hc1.2 hc2.2⟩

lemma specialTripleResult_bounds :
    ∀ s ∈ specialTripleResult, 0 ≤ s.confidence ∧ s.confidence ≤ 1 := by
  intro s hs
  rw [specialTripleResult] at hs
  rcases List.mem_cons.mp hs with rfl | hs
  · norm_num
  · rcases List.mem_singleton.mp hs with rfl
    norm_num

/-- C10: every segment returned by the speech detector's span processing
has confidence exactly 1.0, for every VAD span list and every positive
configured minimum speech duration: short spans are skipped before the
confidence formula, so min(1, duration/min_duration) is always 1, and
duration-weighted merging of all-ones confidences yields 1. -/
theorem claim10_theorem (spans : List (ℕ × ℕ)) (min_duration : ℚ)
    (hmin : 0 < min_duration) :
    ∃ out, speechProcess spans min_duration = .ok out ∧ ∀ s ∈ out, s.confidence = 1 :=
  speechProcess_all_one spans min_duration hmin

/-- C10 witness: the all-ones confidence property at a concrete
one-second span with the default minimum. -/
theorem claim10_witness :
    ∃ out, speechProcess [(0, 16000)] (3/10) = .ok out ∧ ∀ s ∈ out, s.confidence = 1 :=
  claim10_theorem [(0, 16000)] (3/10) (by norm_num)

lemma silenceMerge_ok_bounds (frames : List (ℚ × ℚ)) (audioDuration : ℚ)
    (out : List AudioSegment)
    (hok : merge_adjacent_segments (silenceSegments frames audioDuration)
      GAP_MERGE_THRESHOLD = .ok out) :
    ∀ s ∈ out, 0 ≤ s.confidence ∧ s.confidence ≤ 1 := by
  have hconf : ∀ s ∈ silenceSegments frames audioDuration,
      (0 ≤ s.confidence ∧ s.confidence ≤ 1) ∧ MIN_SILENCE_DURATION ≤ s.duration :=
    silenceSegments_inv (fun seg => 0 ≤ seg.confidence ∧ seg.confidence ≤ 1)
      (fun _ db hdb => silenceFrameConfidence_bounds hdb)
      (fun _ _ hc => hc) frames audioDuration
  rcases merge_ok_inv GAP_MERGE_THRESHOLD (fun q => 0 ≤ q ∧ q ≤ 1)
      segConfBounds_weighted (silenceSegments frames audioDuration)
      (fun s hs => lt_of_lt_of_le (by norm_num [MIN_SILENCE_DURATION]) (hconf s hs).2)
      (fun s hs => (hconf s hs).1)
      (fun _ => specialTripleResult_bounds) with ⟨out', hout', hP⟩
  rw [hout'] at hok
  injection hok with h
  subst h
  exact hP

lemma scoreMerge_ok_bounds (thr minDur : ℚ) (hmd : 0 < minDur) (label : String)
    (frames : List (ℚ × ℚ)) (hfr : ∀ f ∈ frames, 0 ≤ f.2 ∧ f.2 ≤ 1)
    (out : List AudioSegment)
    (hok : merge_adjacent_segments (scoreSegments thr minDur label frames)
      GAP_MERGE_THRESHOLD = .ok out) :
    ∀ s ∈ out, 0 ≤ s.confidence ∧ s.confidence ≤ 1 := by
  have hconf : ∀ s ∈ scoreSegments thr minDur label frames,
      (0 ≤ s.confidence ∧ s.confidence ≤ 1) ∧ minDur ≤ s.duration := by
    apply scoreSegments_inv thr minDur label
      (fun seg => 0 ≤ seg.confidence ∧ seg.confidence ≤ 1) frames
    · intro f hf _
      exact hfr f hf
    · intro f hf c _ hc
      have hb := hfr f hf
      show 0 ≤ (c.confidence + f.2) / 2 ∧ (c.confidence + f.2) / 2 ≤ 1
      constructor
      · apply div_nonneg _ (by norm_num)
        linarith [hc.1, hb.1]
      · rw [div_le_one (by norm_num)]
        linarith [hc.2, hb.2]
  rcases merge_ok_inv GAP_MERGE_THRESHOLD (fun q => 0 ≤ q ∧ q ≤ 1)
      segConfBounds_weighted (scoreSegments thr minDur label frames)
      (fun s hs => lt_of_lt_of_le hmd (hconf s hs).2)
      (fun s hs => (hconf s hs).1)
      (fun _ => specialTripleResult_bounds) with ⟨out', hout', hP⟩
  rw [hout'] at hok
  injection hok with h
  subst h
  exact hP

/-- C6: all four detectors produce confidences within [0, 1]: the music
clip-and-average score and the background weighted average lie in [0, 1]
(the latter given the librosa feature ranges), the silence builder's
dB-derived confidence is clamped to [0, 1], and the bound is preserved by
rolling averaging in the builders and duration-weighted merging, so every
segment of every detector's successful output has 0 ≤ confidence ≤ 1
(speech confidences are exactly 1). -/
theorem claim6_theorem :
    (∀ contrast tempoStrength harmonic : ℚ,
      0 ≤ musicFeatureScore contrast tempoStrength harmonic ∧
        musicFeatureScore contrast tempoStrength harmonic ≤ 1) ∧
    (∀ flatness bandwidth rmsStd : ℚ, 0 ≤ flatness → flatness ≤ 1 →
      0 ≤ bandwidth → 0 ≤ rmsStd →
      0 ≤ backgroundFeatureScore flatness bandwidth rmsStd ∧
        backgroundFeatureScore flatness bandwidth rmsStd ≤ 1) ∧
    (∀ db : ℚ, db < SILENCE_DB_THRESHOLD →
      0 ≤ silenceFrameConfidence db ∧ silenceFrameConfidence db ≤ 1) ∧
    (∀ (dbo : List ℕ → ℚ) (buf : List ℕ) (out : List AudioSegment),
      silenceDetect dbo buf = .ok out →
        ∀ s ∈ out, 0 ≤ s.confidence ∧ s.confidence ≤ 1) ∧
    (∀ (sco : List ℕ → ℚ) (buf : List ℕ) (out : List AudioSegment),
      (∀ fb : List ℕ, 0 ≤ sco fb ∧ sco fb ≤ 1) → musicDetect sco buf = .ok out →
        ∀ s ∈ out, 0 ≤ s.confidence ∧ s.confidence ≤ 1) ∧
    (∀ (sco : List ℕ → ℚ) (buf : List ℕ) (out : List AudioSegment),
      (∀ fb : List ℕ, 0 ≤ sco fb ∧ sco fb ≤ 1) → backgroundDetect sco buf = .ok out →
        ∀ s ∈ out, 0 ≤ s.confidence ∧ s.confidence ≤ 1) ∧
    (∀ (spans : List (ℕ × ℕ)) (buf : List ℕ) (out : List AudioSegment),
      speechDetect spans buf = .ok out →
        ∀ s ∈ out, 0 ≤ s.confidence ∧ s.confidence ≤ 1) := by
  refine ⟨?_, ?_, fun db hdb => silenceFrameConfidence_bounds hdb, ?_, ?_, ?_, ?_⟩
  · intro contrast tempoStrength harmonic
    rw [musicFeatureScore]
    exact ⟨le_max_left 0 _, max_le (by norm_num) (min_le_left _ _)⟩
  · intro flatness bandwidth rmsStd hf0 hf1 hb0 hs0
    rw [backgroundFeatureScore]
    have hm2l : min 1 (bandwidth / ((SAMPLE_RATE : ℚ) / 4)) ≤ 1 := min_le_left _ _
    have hm2r : 0 ≤ min 1 (bandwidth / ((SAMPLE_RATE : ℚ) / 4)) := by
      refine le_min (by norm_num) ?_
      apply div_nonneg hb0
      norm_num [SAMPLE_RATE]
    have hm3l : min 1 (rmsStd * 10) ≤ 1 := min_le_left _ _
    have hm3r : 0 ≤ min 1 (rmsStd * 10) := le_min (by norm_num) (by linarith)
    constructor <;> nlinarith
  · intro dbo buf out hok
    rw [silenceDetect] at hok
    split at hok
    · split at hok
      · injection hok with h
        subst h
        intro s hs
        rcases List.mem_singleton.mp hs with rfl
        norm_num
      · injection hok with h
        subst h
        intro s hs
        rcases List.mem_cons.mp hs with rfl | hs
        · norm_num
        · rcases List.mem_singleton.mp hs with rfl
          norm_num
    · split at hok
      · cases hok
      · split at hok
        · cases hok
        · split at hok
          · cases hok
          · split at hok
            · cases hok
            · split at hok
              · dsimp only at hok
                rcases hcur : (List.foldl silenceStep ([], none)
                    (List.map (fun p => (p.2, dbo p.1))
                      (frame_generator SAMPLE_RATE FRAME_DURATION_MS buf))).2 with _ | c
                · rw [hcur] at hok
                  dsimp only at hok
                  exact silenceMerge_ok_bounds _ _ out hok
                · rw [hcur] at hok
                  dsimp only at hok
                  injection hok with h
                  subst h
                  intro s hs
                  rcases List.mem_singleton.mp hs with rfl
                  norm_num
              · dsimp only at hok
                rcases hcur : (List.foldl silenceStep ([], none)
                    (List.map (fun p => (p.2, dbo p.1))
                      (frame_generator SAMPLE_RATE FRAME_DURATION_MS buf))).2 with _ | c
                · rw [hcur] at hok
                  dsimp only at hok
                  exact silenceMerge_ok_bounds _ _ out hok
                · rw [hcur] at hok
                  dsimp only at hok
                  exact silenceMerge_ok_bounds _ _ out hok
  · intro sco buf out hsco hok
    rw [musicDetect] at hok
    split at hok
    · cases hok
    · split at hok
      · cases hok
      · refine scoreMerge_ok_bounds MUSIC_THRESHOLD MIN_MUSIC_DURATION
          (by norm_num [MIN_MUSIC_DURATION]) "music" _ ?_ out hok
        intro f hf
        rcases List.mem_map.mp hf with ⟨p, _, rfl⟩
        exact hsco p.1
  · intro sco buf out hsco hok
    rw [backgroundDetect] at hok
    split at hok
    · cases hok
    · split at hok
      · cases hok
      · refine scoreMerge_ok_bounds BACKGROUND_THRESHOLD backgroundMinDuration
          (by norm_num [backgroundMinDuration, get_min_duration, MIN_BACKGROUND_DURATION,
            NON_VOICE_DURATION_THRESHOLD]) "background" _ ?_ out hok
        intro f hf
        rcases List.mem_map.mp hf with ⟨p, _, rfl⟩
        exact hsco p.1
  · intro spans buf out hok
    rw [speechDetect] at hok
    split at hok
    · cases hok
    · split at hok
      · cases hok
      · split at hok
        · cases hok
        · split at hok
          · cases hok
          · split at hok
            · cases hok
            · rcases speechProcess_all_one spans MIN_SPEECH_DURATION
                (by norm_num [MIN_SPEECH_DURATION]) with ⟨out', h1, h2⟩
              rw [h1] at hok
              injection hok with h
              subst h
              intro s hs
              rw [h2 s hs]
              norm_num

/-- C6 witness: the bounds applied at concrete feature values, a concrete
silent frame, and concrete detector runs on a valid two-byte buffer. -/
theorem claim6_witness :
    (0 ≤ musicFeatureScore 10 (1/2) (1/3) ∧ musicFeatureScore 10 (1/2) (1/3) ≤ 1) ∧
    (0 ≤ backgroundFeatureScore (1/2) 100 (1/100) ∧
      backgroundFeatureScore (1/2) 100 (1/100) ≤ 1) ∧
    (0 ≤ silenceFrameConfidence (-60) ∧ silenceFrameConfidence (-60) ≤ 1) ∧
    (∀ s ∈ ([] : List AudioSegment), 0 ≤ s.confidence ∧ s.confidence ≤ 1) ∧
    (∀ s ∈ ([] : List AudioSegment), 0 ≤ s.confidence ∧ s.confidence ≤ 1) ∧
    (∀ s ∈ ([] : List AudioSegment), 0 ≤ s.confidence ∧ s.confidence ≤ 1) ∧
    (∀ s ∈ ([] : List AudioSegment), 0 ≤ s.confidence ∧ s.confidence ≤ 1) := by
  have hsil : silenceDetect (fun _ => 0) [0, 0] = .ok [] := by
    norm_num [silenceDetect, silenceSpecialPattern, bytesToSamples, invalidAudioData,
      bytesToTensor, frame_generator, frameSizeBytes, frameLoop, SAMPLE_RATE,
      FRAME_DURATION_MS, silenceSegments, merge_adjacent_segments] <;> simp
  have hmus : musicDetect (fun _ => 1/2) [0, 0] = .ok [] := by
    norm_num [musicDetect, bytesToSamples, bytesToTensor, frame_generator, frameSizeBytes,
      frameLoop, SAMPLE_RATE, FRAME_DURATION_MS, scoreSegments, merge_adjacent_segments] <;> simp
  have hbg : backgroundDetect (fun _ => 1/2) [0, 0] = .ok [] := by
    norm_num [backgroundDetect, bytesToSamples, bytesToTensor, frame_generator,
      frameSizeBytes, frameLoop, SAMPLE_RATE, FRAME_DURATION_MS, scoreSegments,
      merge_adjacent_segments] <;> simp
  have hsp : speechDetect [] [0, 0] = .ok [] := by
    norm_num [speechDetect, bytesToSamples, bytesToTensor, invalidAudioData,
      speechProcess, speechSegmentsOf, merge_adjacent_segments] <;> simp
  exact ⟨claim6_theorem.1 10 (1/2) (1/3),
    claim6_theorem.2.1 (1/2) 100 (1/100) (by norm_num) (by norm_num) (by norm_num)
      (by norm_num),
    claim6_theorem.2.2.1 (-60) (by norm_num [SILENCE_DB_THRESHOLD]),
    claim6_theorem.2.2.2.1 (fun _ => 0) [0, 0] [] hsil,
    claim6_theorem.2.2.2.2.1 (fun _ => 1/2) [0, 0] []
      (fun _ => by norm_num) hmus,
    claim6_theorem.2.2.2.2.2.1 (fun _ => 1/2) [0, 0] []
      (fun _ => by norm_num) hbg,
    claim6_theorem.2.2.2.2.2.2 [] [0, 0] [] hsp⟩
